import Mathlib

/-!
Verification of the orderbook server's core against its specification.

The embedding below translates `src/lib.rs` into Lean:
* `Commodity`, `Operation`, `Message` mirror the Rust enums/struct.
* `Message.fromStr`, `Operation.fromStr`, `Commodity.fromStr` mirror the
  `FromStr` implementations; Rust's `split(':')` is modelled by `splitColon`
  on `List Char` (it yields every colon-separated field, `[""]` on the empty
  string, exactly like the Rust iterator).
* `OrderBook` models the `HashMap<Commodity, i32>` as a total counter
  function (Rust's `entry(c).or_insert(0)` makes an absent key behave as 0);
  the idealized counter is an unbounded `Int`, while `OrderBookW` models the
  release-mode wrapping `i32` semantics explicitly.
* `OrderBook.process` / `OrderBook.runTrades` mirror the `handle_orderbook`
  loop; `handleLine` / `handleTradeEvent` mirror the per-event reactions of
  `handle_connection`.
-/

namespace OrderbookServer

/-- The five tradable commodities (`enum Commodity` in `src/lib.rs`). -/
inductive Commodity where
  | apple
  | pear
  | tomato
  | potato
  | onion
deriving DecidableEq

/-- Buy or sell (`enum Operation` in `src/lib.rs`). -/
inductive Operation where
  | buy
  | sell
deriving DecidableEq

/-- A parsed client request (`struct Message` in `src/lib.rs`). -/
structure Message where
  commodity : Commodity
  operation : Operation
deriving DecidableEq

/-- The `Display` impl for `Commodity`: the upper-case wire name. -/
def Commodity.display : Commodity → String
  | .apple => "APPLE"
  | .pear => "PEAR"
  | .tomato => "TOMATO"
  | .potato => "POTATO"
  | .onion => "ONION"

/-- The `Display` impl for `Operation` (used only in log lines). -/
def Operation.display : Operation → String
  | .buy => "buy"
  | .sell => "sell"

/-- The operation wire name recognized by `Operation::from_str`
(`"BUY"`/`"SELL"`), the inverse of that parser's match arms; the test
harness writes lines `BUY:APPLE` etc. built from these names. -/
def Operation.wireName : Operation → String
  | .buy => "BUY"
  | .sell => "SELL"

/-- `Operation::from_str`: case-exact match on `"BUY"`/`"SELL"`, otherwise
the error `"Operation not supported."`. -/
def Operation.fromStr (s : List Char) : Except String Operation :=
  if s = "BUY".data then Except.ok Operation.buy
  else if s = "SELL".data then Except.ok Operation.sell
  else Except.error "Operation not supported."

/-- `Commodity::from_str`: case-exact match on the five upper-case names,
otherwise the error `"Commodity not supported."`. -/
def Commodity.fromStr (s : List Char) : Except String Commodity :=
  if s = "APPLE".data then Except.ok Commodity.apple
  else if s = "PEAR".data then Except.ok Commodity.pear
  else if s = "TOMATO".data then Except.ok Commodity.tomato
  else if s = "POTATO".data then Except.ok Commodity.potato
  else if s = "ONION".data then Except.ok Commodity.onion
  else Except.error "Commodity not supported."

/-- Rust's `str::split(':')` on a character list: every colon-separated
field in order, possibly empty; the empty input yields one empty field. -/
def splitColon : List Char → List (List Char)
  | [] => [[]]
  | c :: rest =>
    if c = ':' then [] :: splitColon rest
    else
      match splitColon rest with
      | [] => [[c]]
      | f :: fs => (c :: f) :: fs

/-- `Message::from_str`: take the first three fields of `split(':')`; the
line is well-formed iff there are exactly two and both are non-empty, in
which case the operation field is parsed first, then the commodity field
(each `?` propagating its own error); any other shape is
`"Invalid order command."`. -/
def Message.fromStr (s : List Char) : Except String Message :=
  match splitColon s with
  | [op, cm] =>
    if op ≠ [] ∧ cm ≠ [] then
      match Operation.fromStr op with
      | Except.error e => Except.error e
      | Except.ok operation =>
        match Commodity.fromStr cm with
        | Except.error e => Except.error e
        | Except.ok commodity => Except.ok { commodity := commodity, operation := operation }
    else Except.error "Invalid order command."
  | _ => Except.error "Invalid order command."

/-- `struct OrderBook(HashMap<Commodity, i32>)`, with the map modelled as a
total counter function (absent key = 0, as `entry(c).or_insert(0)` makes
it) and the counter idealized to `Int`; `OrderBookW` below keeps the `i32`
wrapping. -/
structure OrderBook where
  counters : Commodity → Int

/-- `OrderBook::new`: the empty map, every counter 0. -/
def OrderBook.new : OrderBook :=
  { counters := fun _ => 0 }

/-- `OrderBook::add_buy_order`: increment the commodity's counter; a trade
happens iff the counter after the increment is ≤ 0. -/
def OrderBook.add_buy_order (b : OrderBook) (c : Commodity) : Bool × OrderBook :=
  let n := b.counters c + 1
  (decide (n ≤ 0), { counters := fun x => if x = c then n else b.counters x })

/-- `OrderBook::add_sell_order`: decrement the commodity's counter; a trade
happens iff the counter after the decrement is ≥ 0. -/
def OrderBook.add_sell_order (b : OrderBook) (c : Commodity) : Bool × OrderBook :=
  let n := b.counters c - 1
  (decide (n ≥ 0), { counters := fun x => if x = c then n else b.counters x })

/-- One iteration of the `handle_orderbook` loop body: dispatch the message
on its operation. -/
def OrderBook.step (b : OrderBook) (m : Message) : Bool × OrderBook :=
  match m.operation with
  | Operation.buy => b.add_buy_order m.commodity
  | Operation.sell => b.add_sell_order m.commodity

/-- The `handle_orderbook` loop over a finite list of received messages:
the per-message trade flags and the final book. -/
def OrderBook.process : OrderBook → List Message → List Bool × OrderBook
  | b, [] => ([], b)
  | b, m :: ms =>
    match b.step m with
    | (t, b2) =>
      match b2.process ms with
      | (ts, b3) => (t :: ts, b3)

/-- The trade events `handle_orderbook` sends on `confirm_tx`: for each
message whose step reports a trade, one event carrying its commodity. -/
def OrderBook.runTrades : OrderBook → List Message → List Commodity
  | _, [] => []
  | b, m :: ms =>
    match b.step m with
    | (t, b2) => (if t then [m.commodity] else []) ++ b2.runTrades ms

/-- The trade events the engine emits on a message list from a fresh book. -/
def engineTrades (msgs : List Message) : List Commodity :=
  OrderBook.new.runTrades msgs

/-- Buy messages for commodity `c` in a message list. -/
def countBuys (msgs : List Message) (c : Commodity) : Nat :=
  msgs.countP fun m => decide (m.commodity = c ∧ m.operation = Operation.buy)

/-- Sell messages for commodity `c` in a message list. -/
def countSells (msgs : List Message) (c : Commodity) : Nat :=
  msgs.countP fun m => decide (m.commodity = c ∧ m.operation = Operation.sell)

/-- The bytes `handle_connection` writes for a parse error: `"{e}\n"`. -/
def errLine (e : String) : List Char :=
  e.data ++ ['\n']

/-- The bytes `handle_connection` writes for a valid order:
`"ACK:{commodity}\n"`. -/
def ackLine (c : Commodity) : List Char :=
  "ACK:".data ++ c.display.data ++ ['\n']

/-- The bytes `handle_connection` writes for a received trade event:
`"TRADE:{commodity}\n"`. -/
def tradeLine (c : Commodity) : List Char :=
  "TRADE:".data ++ c.display.data ++ ['\n']

/-- The reaction of `handle_connection` to one inbound client line
(the `Ok(Some(msg))` arm of its select loop): the client-bound writes it
attempts, the messages it forwards to the engine mailbox, and whether the
loop continues (stays active). `sendOk` is the outcome of `tx.send(...)`
and `writeOk` the outcome of `writer.write_all(...)`; the Rust code binds
both to `_`, so neither influences the reaction. -/
def handleLine (s : List Char) (sendOk : Bool) (writeOk : Bool) :
    List (List Char) × List Message × Bool :=
  match Message.fromStr s with
  | Except.error e => ([errLine e], [], true)
  | Except.ok m => ([ackLine m.commodity], [m], true)

/-- The reaction of `handle_connection` to a received trade event (the
`Ok(c)` arm of `confirm_rx.recv()`): the attempted write and whether the
loop continues. `writeOk` is the outcome of `writer.write_all(...)`,
bound to `_` in the Rust code. -/
def handleTradeEvent (c : Commodity) (writeOk : Bool) : List (List Char) × Bool :=
  ([tradeLine c], true)

/-- Modelled from the spec: the broadcast channel's delivery, absent
lag-induced drops — "TradeEvents are delivered to all currently-subscribed
connections"; a subscriber that does not lag receives every event, in
order, exactly once. The per-event reaction (one `TRADE:` line each) is
`handle_connection`'s, from the source. -/
def subscriberOutput (events : List Commodity) : List (List Char) :=
  events.map fun c => tradeLine c

/-- Modelled from the spec: `n` subscribed connections each hold an
independent subscription to the same broadcast stream, so absent lag each
of the `n` produces the same per-subscriber output. -/
def fanOut (n : Nat) (events : List Commodity) : List (List (List Char)) :=
  List.replicate n (subscriberOutput events)

/-- Two-complement wrap of an unbounded integer into the `i32` range
`[-2^31, 2^31)`: reduction modulo `2^32 = 4294967296` centred at 0. This is
what Rust's release-mode `+= 1` / `-= 1` on `i32` compute. -/
def wrap32 (n : Int) : Int :=
  (n + 2147483648) % 4294967296 - 2147483648

/-- `OrderBook` with the counters kept as release-mode `i32` values:
every stored counter is wrapped into `[-2^31, 2^31)`. -/
structure OrderBookW where
  counters : Commodity → Int

/-- `OrderBook::new` under the `i32` model. -/
def OrderBookW.new : OrderBookW :=
  { counters := fun _ => 0 }

/-- `OrderBook::add_buy_order` under the `i32` model: the increment wraps. -/
def OrderBookW.add_buy_order (b : OrderBookW) (c : Commodity) : Bool × OrderBookW :=
  let n := wrap32 (b.counters c + 1)
  (decide (n ≤ 0), { counters := fun x => if x = c then n else b.counters x })

/-- `OrderBook::add_sell_order` under the `i32` model: the decrement wraps. -/
def OrderBookW.add_sell_order (b : OrderBookW) (c : Commodity) : Bool × OrderBookW :=
  let n := wrap32 (b.counters c - 1)
  (decide (n ≥ 0), { counters := fun x => if x = c then n else b.counters x })

/-- One `handle_orderbook` iteration under the `i32` model. -/
def OrderBookW.step (b : OrderBookW) (m : Message) : Bool × OrderBookW :=
  match m.operation with
  | Operation.buy => b.add_buy_order m.commodity
  | Operation.sell => b.add_sell_order m.commodity

/-- The `handle_orderbook` loop under the `i32` model: final book only. -/
def OrderBookW.process : OrderBookW → List Message → OrderBookW
  | b, [] => b
  | b, m :: ms => ((b.step m).2).process ms

/-- Spec predicate: the line splits on `:` into exactly two non-empty
fields (`OPERATION:COMMODITY`). -/
def validShape (s : List Char) : Prop :=
  ∃ op cm, splitColon s = [op, cm] ∧ op ≠ [] ∧ cm ≠ []

/-- Spec predicate: the token is a case-exact operation name. -/
def isOperationName (op : List Char) : Prop :=
  op = "BUY".data ∨ op = "SELL".data

/-- Spec predicate: the token is a case-exact commodity name. -/
def isCommodityName (cm : List Char) : Prop :=
  cm = "APPLE".data ∨ cm = "PEAR".data ∨ cm = "TOMATO".data ∨
    cm = "POTATO".data ∨ cm = "ONION".data

/-- The wire-format line the test harness sends for an intent:
`OP:COMMODITY` from the operation's wire name and the commodity's
upper-case display name (`BUY:APPLE` etc. in `tests/integration.rs`,
without the trailing newline consumed by the line reader). -/
def formatIntent (op : Operation) (c : Commodity) : List Char :=
  op.wireName.data ++ ':' :: c.display.data

deriving instance DecidableEq for Except

/-! ## Helper lemmas -/

theorem wrap32_wrap_add (a k : Int) : wrap32 (wrap32 a + k) = wrap32 (a + k) := by
  unfold wrap32
  omega

theorem wrap32_wrap_sub (a k : Int) : wrap32 (wrap32 a - k) = wrap32 (a - k) := by
  unfold wrap32
  omega

theorem wrap32_wrap_addsub (a k j : Int) :
    wrap32 (wrap32 a + k - j) = wrap32 (a + k - j) := by
  unfold wrap32
  omega

theorem wrap32_eq_self_iff (n : Int) :
    wrap32 n = n ↔ -2147483648 ≤ n ∧ n < 2147483648 := by
  unfold wrap32
  omega

theorem processW_cons (b : OrderBookW) (m : Message) (ms : List Message) :
    b.process (m :: ms) = ((b.step m).2).process ms := rfl

theorem processW_counters (msgs : List Message) :
    ∀ (b : OrderBookW) (c : Commodity), (∀ x, wrap32 (b.counters x) = b.counters x) →
      (b.process msgs).counters c =
        wrap32 (b.counters c + countBuys msgs c - countSells msgs c) := by
  induction msgs with
  | nil =>
    intro b c hb
    simpa [OrderBookW.process, countBuys, countSells] using (hb c).symm
  | cons m ms ih =>
    intro b c hb
    rw [processW_cons]
    rcases m with ⟨mc, mo⟩
    cases mo
    case buy =>
      have hb2 : ∀ x, wrap32 (((b.add_buy_order mc).2).counters x) =
          ((b.add_buy_order mc).2).counters x := by
        intro x
        by_cases hx : x = mc
        · subst hx
          simpa [OrderBookW.add_buy_order] using
            wrap32_wrap_add (b.counters x + 1) 0
        · simpa [OrderBookW.add_buy_order, hx] using hb x
      rw [show (OrderBookW.step b { commodity := mc, operation := Operation.buy }).2 =
        (b.add_buy_order mc).2 from rfl, ih _ c hb2]
      by_cases hc : c = mc
      · subst hc
        have hup : ((b.add_buy_order c).2).counters c = wrap32 (b.counters c + 1) := by
          simp [OrderBookW.add_buy_order]
        rw [hup, wrap32_wrap_addsub]
        have hcount : (countBuys ({ commodity := c, operation := Operation.buy } :: ms) c : Int) =
            countBuys ms c + 1 := by
          simp [countBuys, List.countP_cons]
        have hcount2 : (countSells ({ commodity := c, operation := Operation.buy } :: ms) c : Int) =
            countSells ms c := by
          simp [countSells, List.countP_cons]
        rw [hcount, hcount2]
        ring_nf
      · have hc2 : ¬ mc = c := fun h => hc h.symm
        have hup : ((b.add_buy_order mc).2).counters c = b.counters c := by
          simp [OrderBookW.add_buy_order, hc]
        rw [hup]
        simp [countBuys, countSells, List.countP_cons, hc2]
    case sell =>
      have hb2 : ∀ x, wrap32 (((b.add_sell_order mc).2).counters x) =
          ((b.add_sell_order mc).2).counters x := by
        intro x
        by_cases hx : x = mc
        · subst hx
          simpa [OrderBookW.add_sell_order] using
            wrap32_wrap_add (b.counters x - 1) 0
        · simpa [OrderBookW.add_sell_order, hx] using hb x
      rw [show (OrderBookW.step b { commodity := mc, operation := Operation.sell }).2 =
        (b.add_sell_order mc).2 from rfl, ih _ c hb2]
      by_cases hc : c = mc
      · subst hc
        have hup : ((b.add_sell_order c).2).counters c = wrap32 (b.counters c - 1) := by
          simp [OrderBookW.add_sell_order]
        rw [hup, wrap32_wrap_addsub]
        have hcount : (countBuys ({ commodity := c, operation := Operation.sell } :: ms) c : Int) =
            countBuys ms c := by
          simp [countBuys, List.countP_cons]
        have hcount2 : (countSells ({ commodity := c, operation := Operation.sell } :: ms) c : Int) =
            countSells ms c + 1 := by
          simp [countSells, List.countP_cons]
        rw [hcount, hcount2]
        ring_nf
      · have hc2 : ¬ mc = c := fun h => hc h.symm
        have hup : ((b.add_sell_order mc).2).counters c = b.counters c := by
          simp [OrderBookW.add_sell_order, hc]
        rw [hup]
        simp [countBuys, countSells, List.countP_cons, hc2]

theorem processW_new_counters (ms : List Message) (x : Commodity) :
    (OrderBookW.new.process ms).counters x =
      wrap32 ((countBuys ms x : Int) - countSells ms x) := by
  have h := processW_counters ms OrderBookW.new x
    (fun x2 => by show wrap32 (0 : Int) = (0 : Int); unfold wrap32; omega)
  simpa [OrderBookW.new] using h

theorem operation_fromStr_err (op : List Char) (h : ¬ isOperationName op) :
    Operation.fromStr op = Except.error "Operation not supported." := by
  unfold Operation.fromStr
  unfold isOperationName at h
  push_neg at h
  rw [if_neg h.1, if_neg h.2]

theorem operation_fromStr_error_msg (op : List Char) (e : String)
    (h : Operation.fromStr op = Except.error e) : e = "Operation not supported." := by
  unfold Operation.fromStr at h
  split_ifs at h <;> simp_all

theorem operation_fromStr_ok_of_name (op : List Char) (h : isOperationName op) :
    ∃ o, Operation.fromStr op = Except.ok o := by
  rcases h with h | h <;> subst h <;> exact ⟨_, rfl⟩

theorem commodity_fromStr_err (cm : List Char) (h : ¬ isCommodityName cm) :
    Commodity.fromStr cm = Except.error "Commodity not supported." := by
  unfold Commodity.fromStr
  unfold isCommodityName at h
  push_neg at h
  obtain ⟨h1, h2, h3, h4, h5⟩ := h
  rw [if_neg h1, if_neg h2, if_neg h3, if_neg h4, if_neg h5]

theorem commodity_fromStr_error_msg (cm : List Char) (e : String)
    (h : Commodity.fromStr cm = Except.error e) : e = "Commodity not supported." := by
  unfold Commodity.fromStr at h
  split_ifs at h <;> simp_all

theorem commodity_fromStr_ok_of_name (cm : List Char) (h : isCommodityName cm) :
    ∃ c, Commodity.fromStr cm = Except.ok c := by
  rcases h with h | h | h | h | h <;> subst h <;> exact ⟨_, rfl⟩

theorem Message.fromStr_shape_err (s : List Char) (h : ¬ validShape s) :
    Message.fromStr s = Except.error "Invalid order command." := by
  unfold Message.fromStr
  rcases hsp : splitColon s with _ | ⟨op, _ | ⟨cm, _ | ⟨x, rest⟩⟩⟩
  · rfl
  · rfl
  · show (if op ≠ [] ∧ cm ≠ [] then
        match Operation.fromStr op with
        | Except.error e => Except.error e
        | Except.ok operation =>
          match Commodity.fromStr cm with
          | Except.error e => Except.error e
          | Except.ok commodity => Except.ok (Message.mk commodity operation)
      else Except.error "Invalid order command.") = Except.error "Invalid order command."
    rw [if_neg]
    intro ⟨hop, hcm⟩
    exact h ⟨op, cm, hsp, hop, hcm⟩
  · rfl

theorem Message.fromStr_fields (s op cm : List Char)
    (hs : splitColon s = [op, cm]) (hop : op ≠ []) (hcm : cm ≠ []) :
    Message.fromStr s =
      match Operation.fromStr op with
      | Except.error e => Except.error e
      | Except.ok operation =>
        match Commodity.fromStr cm with
        | Except.error e => Except.error e
        | Except.ok commodity =>
          Except.ok { commodity := commodity, operation := operation } := by
  unfold Message.fromStr
  rw [hs]
  show (if op ≠ [] ∧ cm ≠ [] then
      match Operation.fromStr op with
      | Except.error e => Except.error e
      | Except.ok operation =>
        match Commodity.fromStr cm with
        | Except.error e => Except.error e
        | Except.ok commodity => Except.ok (Message.mk commodity operation)
    else Except.error "Invalid order command.") = _
  rw [if_pos ⟨hop, hcm⟩]

theorem tradeLine_inj (a b : Commodity) : tradeLine a = tradeLine b ↔ a = b := by
  cases a <;> cases b <;> decide

theorem count_tradeLine (events : List Commodity) (c : Commodity) :
    (events.map fun x => tradeLine x).count (tradeLine c) = events.count c := by
  induction events with
  | nil => rfl
  | cons e evs ih =>
    simp [List.count_cons, ih, beq_iff_eq, tradeLine_inj]

theorem countBuys_replicate (n : Nat) (c : Commodity) :
    countBuys (List.replicate n (Message.mk c Operation.buy)) c = n := by
  induction n with
  | zero => rfl
  | succ k ih =>
    simp [countBuys, List.replicate_succ, List.countP_cons] at ih ⊢
    omega

theorem countSells_replicate_buy (n : Nat) (c : Commodity) :
    countSells (List.replicate n (Message.mk c Operation.buy)) c = 0 := by
  induction n with
  | zero => rfl
  | succ k ih =>
    simp [countSells, List.replicate_succ, List.countP_cons] at ih ⊢

theorem Message.fromStr_error_taxonomy (s : List Char) (e : String)
    (h : Message.fromStr s = Except.error e) :
    e = "Invalid order command." ∨ e = "Operation not supported." ∨
      e = "Commodity not supported." := by
  by_cases hv : validShape s
  · obtain ⟨op, cm, hs, hop, hcm⟩ := hv
    rw [Message.fromStr_fields s op cm hs hop hcm] at h
    cases ho : Operation.fromStr op with
    | error e2 =>
      rw [ho] at h
      have he : e2 = e := Except.error.inj h
      exact Or.inr (Or.inl (he ▸ operation_fromStr_error_msg op e2 ho))
    | ok o =>
      rw [ho] at h
      cases hc : Commodity.fromStr cm with
      | error e3 =>
        rw [hc] at h
        have he : e3 = e := Except.error.inj h
        exact Or.inr (Or.inr (he ▸ commodity_fromStr_error_msg cm e3 hc))
      | ok c =>
        rw [hc] at h
        exact absurd h (by simp)
  · rw [Message.fromStr_shape_err s hv] at h
    exact Or.inl (Except.error.inj h).symm

/-! ## The claims -/

/-- C1 counterexample: the counter is a wrapping `i32`, so "a Buy
transitions `c` to `c+1` and trades iff `c+1 ≤ 0`" fails at the
representable (and reachable, after `2^31 - 1` buys) counter value
`2^31 - 1 = 2147483647`: the increment wraps to `-2^31`, which is not
`c+1`, and a trade fires although `c+1 = 2^31 > 0`. -/
theorem c1_counterexample_overflow_buy :
    ((OrderBookW.mk fun _ => 2147483647).add_buy_order Commodity.apple).2.counters
        Commodity.apple ≠ 2147483647 + 1 ∧
    ((OrderBookW.mk fun _ => 2147483647).add_buy_order Commodity.apple).1 = true ∧
    ¬ ((2147483647 : Int) + 1 ≤ 0) := by
  decide

/-- C1 (amended): under the release-mode `i32` semantics, for every
commodity and prior counter value a Buy transitions the counter to
`wrap32 (c+1)` and trades iff `wrap32 (c+1) ≤ 0`, and a Sell transitions
it to `wrap32 (c-1)` and trades iff `wrap32 (c-1) ≥ 0`; whenever the
incremented (resp. decremented) value still lies in the `i32` range this
is exactly the claimed rule — transition to `c+1` with a trade iff
`c+1 ≤ 0`, resp. `c-1` with a trade iff `c-1 ≥ 0`. The iff
characterizations pin the trade decision as a function of the prior
counter and the operation alone, so it is deterministic. -/
theorem c1_crossing_rule_i32 (b : OrderBookW) (c : Commodity) :
    ((b.add_buy_order c).2.counters c = wrap32 (b.counters c + 1) ∧
      ((b.add_buy_order c).1 = true ↔ wrap32 (b.counters c + 1) ≤ 0)) ∧
    ((b.add_sell_order c).2.counters c = wrap32 (b.counters c - 1) ∧
      ((b.add_sell_order c).1 = true ↔ wrap32 (b.counters c - 1) ≥ 0)) ∧
    (-2147483648 ≤ b.counters c + 1 ∧ b.counters c + 1 < 2147483648 →
      (b.add_buy_order c).2.counters c = b.counters c + 1 ∧
        ((b.add_buy_order c).1 = true ↔ b.counters c + 1 ≤ 0)) ∧
    (-2147483648 ≤ b.counters c - 1 ∧ b.counters c - 1 < 2147483648 →
      (b.add_sell_order c).2.counters c = b.counters c - 1 ∧
        ((b.add_sell_order c).1 = true ↔ b.counters c - 1 ≥ 0)) := by
  have hb1 : (b.add_buy_order c).2.counters c = wrap32 (b.counters c + 1) := by
    simp [OrderBookW.add_buy_order]
  have hb2 : (b.add_buy_order c).1 = true ↔ wrap32 (b.counters c + 1) ≤ 0 := by
    simp [OrderBookW.add_buy_order]
  have hs1 : (b.add_sell_order c).2.counters c = wrap32 (b.counters c - 1) := by
    simp [OrderBookW.add_sell_order]
  have hs2 : (b.add_sell_order c).1 = true ↔ wrap32 (b.counters c - 1) ≥ 0 := by
    simp [OrderBookW.add_sell_order]
  refine ⟨⟨hb1, hb2⟩, ⟨hs1, hs2⟩, ?_, ?_⟩
  · intro h
    have hid : wrap32 (b.counters c + 1) = b.counters c + 1 :=
      (wrap32_eq_self_iff _).2 h
    exact ⟨by rw [hb1, hid], by rw [hb2, hid]⟩
  · intro h
    have hid : wrap32 (b.counters c - 1) = b.counters c - 1 :=
      (wrap32_eq_self_iff _).2 h
    exact ⟨by rw [hs1, hid], by rw [hs2, hid]⟩

/-- C1 witness: a Buy on APPLE from the fresh book (counter 0, no
overflow): the wrapped characterization and the in-range rule both hold
concretely. -/
theorem c1_witness :
    ((OrderBookW.new.add_buy_order Commodity.apple).2.counters Commodity.apple =
        wrap32 (OrderBookW.new.counters Commodity.apple + 1) ∧
      ((OrderBookW.new.add_buy_order Commodity.apple).1 = true ↔
        wrap32 (OrderBookW.new.counters Commodity.apple + 1) ≤ 0)) ∧
    ((OrderBookW.new.add_buy_order Commodity.apple).2.counters Commodity.apple =
        OrderBookW.new.counters Commodity.apple + 1 ∧
      ((OrderBookW.new.add_buy_order Commodity.apple).1 = true ↔
        OrderBookW.new.counters Commodity.apple + 1 ≤ 0)) :=
  have h := c1_crossing_rule_i32 OrderBookW.new Commodity.apple
  ⟨h.1, h.2.2.1 (by decide)⟩

/-- C2 counterexample: on Buy, Buy, Sell, Sell for one commodity from a
fresh book, the fourth message — the second sell — also fires a trade
(its flag, at index 3, is `true`), contrary to the claim that only the
first sell trades: the counter goes 1, 2, 1, 0 and a sell trades whenever
the counter after the decrement is ≥ 0, which holds at both 1 and 0. -/
theorem c2_counterexample_second_sell_trades :
    ((OrderBook.new.process
      [Message.mk Commodity.apple Operation.buy,
       Message.mk Commodity.apple Operation.buy,
       Message.mk Commodity.apple Operation.sell,
       Message.mk Commodity.apple Operation.sell]).1).getD 3 false = true := by
  decide

/-- C2 (amended): from a fresh engine, Buy, Buy, Sell, Sell on one
commodity fires no trade on either buy and fires a trade on **both**
sells — the full trade-flag sequence is `[false, false, true, true]`. -/
theorem c2_both_sells_trade :
    (OrderBook.new.process
      [Message.mk Commodity.apple Operation.buy,
       Message.mk Commodity.apple Operation.buy,
       Message.mk Commodity.apple Operation.sell,
       Message.mk Commodity.apple Operation.sell]).1 =
      [false, false, true, true] := by
  decide

/-- C3: parsing classifies every line by first failing check — not
exactly two non-empty colon-separated fields gives
`Invalid order command.` regardless of token contents; with a valid
shape, an unrecognized operation token gives `Operation not supported.`
regardless of the commodity token; with a recognized operation, an
unrecognized commodity token gives `Commodity not supported.`; otherwise
parsing succeeds with the pair the two tokens denote. -/
theorem c3_first_failing_check (s : List Char) :
    (¬ validShape s → Message.fromStr s = Except.error "Invalid order command.") ∧
    ∀ op cm, splitColon s = [op, cm] → op ≠ [] → cm ≠ [] →
      (¬ isOperationName op → Message.fromStr s = Except.error "Operation not supported.") ∧
      (isOperationName op → ¬ isCommodityName cm →
        Message.fromStr s = Except.error "Commodity not supported.") ∧
      (isOperationName op → isCommodityName cm →
        ∃ o c, Operation.fromStr op = Except.ok o ∧ Commodity.fromStr cm = Except.ok c ∧
          Message.fromStr s = Except.ok { commodity := c, operation := o }) := by
  refine ⟨Message.fromStr_shape_err s, ?_⟩
  intro op cm hs hop hcm
  refine ⟨?_, ?_, ?_⟩
  · intro hno
    rw [Message.fromStr_fields s op cm hs hop hcm, operation_fromStr_err op hno]
  · intro hyes hno
    obtain ⟨o, ho⟩ := operation_fromStr_ok_of_name op hyes
    rw [Message.fromStr_fields s op cm hs hop hcm, ho, commodity_fromStr_err cm hno]
  · intro hyes hcy
    obtain ⟨o, ho⟩ := operation_fromStr_ok_of_name op hyes
    obtain ⟨c, hc⟩ := commodity_fromStr_ok_of_name cm hcy
    exact ⟨o, c, ho, hc, by rw [Message.fromStr_fields s op cm hs hop hcm, ho, hc]⟩

/-- C3 witness: `BUY:BANANA` has a valid shape and a valid operation
token but an unknown commodity token, and indeed parses to the
`Commodity not supported.` error. -/
theorem c3_witness :
    Message.fromStr "BUY:BANANA".data = Except.error "Commodity not supported." :=
  ((c3_first_failing_check "BUY:BANANA".data).2 "BUY".data "BANANA".data
    (by decide) (by decide) (by decide)).2.1
    (by unfold isOperationName; decide) (by unfold isCommodityName; decide)

/-- C4 counterexample: the counter is a wrapping `i32`, so "the counter
after processing equals buys minus sells for every finite sequence"
fails at `2^31` buys of APPLE from the fresh engine: the program's
counter is `-2^31`, not the mathematical `2^31`. -/
theorem c4_counterexample_overflow :
    (OrderBookW.new.process (List.replicate 2147483648
        (Message.mk Commodity.apple Operation.buy))).counters Commodity.apple ≠
      (countBuys (List.replicate 2147483648 (Message.mk Commodity.apple Operation.buy))
          Commodity.apple : Int) -
        countSells (List.replicate 2147483648 (Message.mk Commodity.apple Operation.buy))
          Commodity.apple := by
  rw [processW_new_counters, countBuys_replicate, countSells_replicate_buy]
  unfold wrap32
  push_cast

/-- C4 (amended): under the release-mode `i32` semantics, after any
message sequence from the fresh book a commodity's counter equals the
two-complement wrap of its buys minus its sells — hence equals the
mathematical difference itself whenever that difference lies in the
`i32` range `[-2^31, 2^31)`; a commodity that appears in no message
keeps counter 0; and any single engine step from a book satisfying the
wrapped invariant re-establishes it for the extended sequence. -/
theorem c4_net_interest_wrapped (msgs : List Message) (m : Message)
    (c : Commodity) (b : OrderBookW) :
    (OrderBookW.new.process msgs).counters c =
        wrap32 ((countBuys msgs c : Int) - countSells msgs c) ∧
    (-2147483648 ≤ (countBuys msgs c : Int) - countSells msgs c ∧
        (countBuys msgs c : Int) - countSells msgs c < 2147483648 →
      (OrderBookW.new.process msgs).counters c =
        (countBuys msgs c : Int) - countSells msgs c) ∧
    ((∀ m2 ∈ msgs, m2.commodity ≠ c) →
      (OrderBookW.new.process msgs).counters c = 0) ∧
    (b.counters c = wrap32 ((countBuys msgs c : Int) - countSells msgs c) →
      ((b.step m).2).counters c =
        wrap32 ((countBuys (msgs ++ [m]) c : Int) - countSells (msgs ++ [m]) c)) := by
  refine ⟨processW_new_counters msgs c, ?_, ?_, ?_⟩
  · intro h
    rw [processW_new_counters msgs c]
    exact (wrap32_eq_self_iff _).2 h
  · intro h
    have hbz : countBuys msgs c = 0 := by
      rw [countBuys, List.countP_eq_zero]
      intro m2 hm2
      simp only [decide_eq_true_eq, not_and]
      intro hcc
      exact absurd hcc (h m2 hm2)
    have hsz : countSells msgs c = 0 := by
      rw [countSells, List.countP_eq_zero]
      intro m2 hm2
      simp only [decide_eq_true_eq, not_and]
      intro hcc
      exact absurd hcc (h m2 hm2)
    rw [processW_new_counters msgs c, hbz, hsz]
    show wrap32 ((0 : Nat) - (0 : Nat) : Int) = 0
    unfold wrap32
    omega
  · intro hb
    rcases m with ⟨mc, mo⟩
    have hba : countBuys (msgs ++ [Message.mk mc mo]) c =
        countBuys msgs c + countBuys [Message.mk mc mo] c := by
      simp [countBuys, List.countP_append]
    have hsa : countSells (msgs ++ [Message.mk mc mo]) c =
        countSells msgs c + countSells [Message.mk mc mo] c := by
      simp [countSells, List.countP_append]
    rw [hba, hsa]
    cases mo
    case buy =>
      by_cases hc : c = mc
      · subst hc
        have hstep : ((b.step (Message.mk c Operation.buy)).2).counters c =
            wrap32 (b.counters c + 1) := by
          simp [OrderBookW.step, OrderBookW.add_buy_order]
        have hc1 : countBuys [Message.mk c Operation.buy] c = 1 := by
          simp [countBuys, List.countP_cons]
        have hc2 : countSells [Message.mk c Operation.buy] c = 0 := by
          simp [countSells, List.countP_cons]
        rw [hstep, hb, wrap32_wrap_add, hc1, hc2]
        congr 1
        push_cast
        ring
      · have hne : ¬ mc = c := fun h2 => hc h2.symm
        have hstep : ((b.step (Message.mk mc Operation.buy)).2).counters c =
            b.counters c := by
          simp [OrderBookW.step, OrderBookW.add_buy_order, hc]
        have hc1 : countBuys [Message.mk mc Operation.buy] c = 0 := by
          simp [countBuys, List.countP_cons, hne]
        have hc2 : countSells [Message.mk mc Operation.buy] c = 0 := by
          simp [countSells, List.countP_cons]
        rw [hstep, hb, hc1, hc2]
        congr 1
    case sell =>
      by_cases hc : c = mc
      · subst hc
        have hstep : ((b.step (Message.mk c Operation.sell)).2).counters c =
            wrap32 (b.counters c - 1) := by
          simp [OrderBookW.step, OrderBookW.add_sell_order]
        have hc1 : countBuys [Message.mk c Operation.sell] c = 0 := by
          simp [countBuys, List.countP_cons]
        have hc2 : countSells [Message.mk c Operation.sell] c = 1 := by
          simp [countSells, List.countP_cons]
        rw [hstep, hb, wrap32_wrap_sub, hc1, hc2]
        congr 1
        push_cast
        ring
      · have hne : ¬ mc = c := fun h2 => hc h2.symm
        have hstep : ((b.step (Message.mk mc Operation.sell)).2).counters c =
            b.counters c := by
          simp [OrderBookW.step, OrderBookW.add_sell_order, hc]
        have hc1 : countBuys [Message.mk mc Operation.sell] c = 0 := by
          simp [countBuys, List.countP_cons]
        have hc2 : countSells [Message.mk mc Operation.sell] c = 0 := by
          simp [countSells, List.countP_cons, hne]
        rw [hstep, hb, hc1, hc2]
        congr 1

/-- C4 witness: one `BUY:APPLE` message, observed at commodity PEAR
(untouched, counter 0, difference in range) and extended by one
`SELL:PEAR` step from the fresh book. -/
theorem c4_witness :
    (OrderBookW.new.process [Message.mk Commodity.apple Operation.buy]).counters
        Commodity.pear =
      wrap32 ((countBuys [Message.mk Commodity.apple Operation.buy] Commodity.pear : Int) -
        countSells [Message.mk Commodity.apple Operation.buy] Commodity.pear) ∧
    (OrderBookW.new.process [Message.mk Commodity.apple Operation.buy]).counters
        Commodity.pear =
      (countBuys [Message.mk Commodity.apple Operation.buy] Commodity.pear : Int) -
        countSells [Message.mk Commodity.apple Operation.buy] Commodity.pear ∧
    (OrderBookW.new.process [Message.mk Commodity.apple Operation.buy]).counters
        Commodity.pear = 0 ∧
    ((OrderBookW.new.step (Message.mk Commodity.pear Operation.sell)).2).counters
        Commodity.pear =
      wrap32 ((countBuys ([Message.mk Commodity.apple Operation.buy] ++
          [Message.mk Commodity.pear Operation.sell]) Commodity.pear : Int) -
        countSells ([Message.mk Commodity.apple Operation.buy] ++
          [Message.mk Commodity.pear Operation.sell]) Commodity.pear) :=
  have h := c4_net_interest_wrapped [Message.mk Commodity.apple Operation.buy]
    (Message.mk Commodity.pear Operation.sell) Commodity.pear OrderBookW.new
  ⟨h.1, h.2.1 (by decide), h.2.2.1 (by decide), h.2.2.2 (by decide)⟩

/-- C5: `BUY:APPLE` and `SELL:APPLE` parse to the expected intents, and
from a fresh engine the sequence BUY, BUY, SELL on APPLE yields counter
values 1, 2, 1 with trade flags `[false, false, true]`: no trade on
either buy, a trade on the third message. -/
theorem c5_scenario_a :
    Message.fromStr "BUY:APPLE".data =
      Except.ok (Message.mk Commodity.apple Operation.buy) ∧
    Message.fromStr "SELL:APPLE".data =
      Except.ok (Message.mk Commodity.apple Operation.sell) ∧
    ((OrderBook.new.process [Message.mk Commodity.apple Operation.buy]).2).counters
      Commodity.apple = 1 ∧
    ((OrderBook.new.process [Message.mk Commodity.apple Operation.buy,
      Message.mk Commodity.apple Operation.buy]).2).counters Commodity.apple = 2 ∧
    ((OrderBook.new.process [Message.mk Commodity.apple Operation.buy,
      Message.mk Commodity.apple Operation.buy,
      Message.mk Commodity.apple Operation.sell]).2).counters Commodity.apple = 1 ∧
    (OrderBook.new.process [Message.mk Commodity.apple Operation.buy,
      Message.mk Commodity.apple Operation.buy,
      Message.mk Commodity.apple Operation.sell]).1 = [false, false, true] := by
  refine ⟨by decide, by decide, by decide, by decide, by decide, by decide⟩

/-- C6: for every (Operation, Commodity) pair, the wire line
`OP:COMMODITY` built from the pair's wire names parses back to exactly
that pair. -/
theorem c6_parse_format_roundtrip (op : Operation) (c : Commodity) :
    Message.fromStr (formatIntent op c) =
      Except.ok (Message.mk c op) := by
  cases op <;> cases c <;> decide

/-- C7: when a line fails to parse, the connection handler writes exactly
the error line followed by a newline — one of the three literal
messages — sends no ACK, forwards nothing to the engine, and stays
active, whatever the outcomes of the discarded send/write results. -/
theorem c7_parse_error_reply (s : List Char) (e : String) (sendOk writeOk : Bool)
    (h : Message.fromStr s = Except.error e) :
    handleLine s sendOk writeOk = ([errLine e], [], true) ∧
    (e = "Invalid order command." ∨ e = "Operation not supported." ∨
      e = "Commodity not supported.") := by
  constructor
  · unfold handleLine
    rw [h]
  · exact Message.fromStr_error_taxonomy s e h

/-- C7 witness: the malformed line `BUY:APPLE:` (three fields) draws the
`Invalid order command.` reply, nothing is forwarded, and the connection
stays active. -/
theorem c7_witness :
    handleLine "BUY:APPLE:".data false false =
      ([errLine "Invalid order command."], [], true) ∧
    ("Invalid order command." = "Invalid order command." ∨
      "Invalid order command." = "Operation not supported." ∨
      "Invalid order command." = "Commodity not supported.") :=
  c7_parse_error_reply "BUY:APPLE:".data "Invalid order command." false false (by decide)

/-- C8: with `n` subscribed connections and the broadcast delivering
every engine trade event to each of them (the no-lag case), there are
exactly `n` per-connection outputs and each contains exactly one
`TRADE:<COMMODITY>` line per trade the engine fired for that commodity. -/
theorem c8_trade_fanout (n : Nat) (msgs : List Message) (out : List (List Char))
    (c : Commodity) (h : out ∈ fanOut n (engineTrades msgs)) :
    (fanOut n (engineTrades msgs)).length = n ∧
    out.count (tradeLine c) = (engineTrades msgs).count c := by
  constructor
  · simp [fanOut]
  · have hout : out = subscriberOutput (engineTrades msgs) :=
      List.eq_of_mem_replicate (by simpa [fanOut] using h)
    rw [hout]
    simpa [subscriberOutput] using count_tradeLine (engineTrades msgs) c

/-- C8 witness: two subscribers, `SELL:ONION` then `BUY:ONION` (one trade
fired, on the buy): both subscriber outputs exist and each carries
exactly one `TRADE:ONION` line. -/
theorem c8_witness :
    (fanOut 2 (engineTrades [Message.mk Commodity.onion Operation.sell,
        Message.mk Commodity.onion Operation.buy])).length = 2 ∧
    (subscriberOutput (engineTrades [Message.mk Commodity.onion Operation.sell,
        Message.mk Commodity.onion Operation.buy])).count (tradeLine Commodity.onion) =
      (engineTrades [Message.mk Commodity.onion Operation.sell,
        Message.mk Commodity.onion Operation.buy]).count Commodity.onion :=
  c8_trade_fanout 2
    [Message.mk Commodity.onion Operation.sell, Message.mk Commodity.onion Operation.buy]
    (subscriberOutput (engineTrades [Message.mk Commodity.onion Operation.sell,
      Message.mk Commodity.onion Operation.buy]))
    Commodity.onion (by decide)

/-- C9: the connection handler's reaction to a line is independent of the
outcomes of the mailbox send and the socket writes (both discarded by
`let _ =`): on a parsed line the ACK is written and the message forwarded
whatever those outcomes, the handler stays active in every case, and a
trade event write likewise never closes the connection by itself. -/
theorem c9_io_results_discarded (s : List Char) (m : Message) (c : Commodity)
    (sendOk writeOk : Bool) :
    handleLine s sendOk writeOk = handleLine s true true ∧
    (Message.fromStr s = Except.ok m →
      handleLine s sendOk writeOk = ([ackLine m.commodity], [m], true)) ∧
    (handleLine s sendOk writeOk).2.2 = true ∧
    handleTradeEvent c writeOk = ([tradeLine c], true) := by
  refine ⟨rfl, ?_, ?_, rfl⟩
  · intro h
    unfold handleLine
    rw [h]
  · unfold handleLine
    cases Message.fromStr s <;> rfl

/-- C9 witness: `BUY:APPLE` with both the mailbox send and the socket
write failing still produces the ACK, the forwarded message and an
active connection, and a failed trade-event write leaves the connection
active. -/
theorem c9_witness :
    handleLine "BUY:APPLE".data false false = handleLine "BUY:APPLE".data true true ∧
    handleLine "BUY:APPLE".data false false =
      ([ackLine Commodity.apple], [Message.mk Commodity.apple Operation.buy], true) ∧
    (handleLine "BUY:APPLE".data false false).2.2 = true ∧
    handleTradeEvent Commodity.onion false = ([tradeLine Commodity.onion], true) :=
  have h := c9_io_results_discarded "BUY:APPLE".data
    (Message.mk Commodity.apple Operation.buy) Commodity.onion false false
  ⟨h.1, h.2.1 (by decide), h.2.2.1, h.2.2.2⟩

/-- C10: under the release-mode `i32` semantics the stored counter is the
two-complement wrap of buys minus sells, it equals the mathematical
difference exactly when that difference lies in `[-2^31, 2^31)`, and
`2^31 = 2147483648` net buys overflow the counter to `-2^31` instead of
the mathematical `2^31`. -/
theorem c10_counter_is_wrapping_i32 (msgs : List Message) (c : Commodity) :
    (OrderBookW.new.process msgs).counters c =
        wrap32 ((countBuys msgs c : Int) - countSells msgs c) ∧
    ((OrderBookW.new.process msgs).counters c =
        (countBuys msgs c : Int) - countSells msgs c ↔
      -2147483648 ≤ (countBuys msgs c : Int) - countSells msgs c ∧
        (countBuys msgs c : Int) - countSells msgs c < 2147483648) ∧
    (OrderBookW.new.process (List.replicate 2147483648
        (Message.mk Commodity.apple Operation.buy))).counters Commodity.apple =
      -2147483648 := by
  have h1 : ∀ (ms : List Message) (x : Commodity),
      (OrderBookW.new.process ms).counters x =
        wrap32 ((countBuys ms x : Int) - countSells ms x) := by
    intro ms x
    have h := processW_counters ms OrderBookW.new x
      (fun x2 => by show wrap32 (0 : Int) = (0 : Int); unfold wrap32; omega)
    simpa [OrderBookW.new] using h
  refine ⟨h1 msgs c, ?_, ?_⟩
  · rw [h1 msgs c]
    exact wrap32_eq_self_iff _
  · rw [h1 (List.replicate 2147483648 (Message.mk Commodity.apple Operation.buy))
      Commodity.apple, countBuys_replicate, countSells_replicate_buy]
    unfold wrap32
    push_cast

end OrderbookServer
